import Mathlib

/-!
Verification development for the branch-switcher orchestration core: a shallow
embedding of `main.go` — repository discovery (`findProjects`), the per
repository branch-switch executor (`switchBranch`), the batch loop
(`processProjects`) and the interactive selection state machine
(`Update` and its per-mode handlers) — together with theorems checking the
specification's claims against that embedding.
-/

namespace BranchSwitcher

/-- A discovered Git repository: the `project` struct in `main.go` (name and
absolute path). -/
structure Project where
  name : String
  path : String
deriving DecidableEq, Repr

/-- One invocation of the external git tool,
`exec.Command("git", "-C", path, args...)`: the target repository path and the
argument list after it. -/
structure GitCommand where
  path : String
  args : List String
deriving DecidableEq, Repr

/-- The external world the executor runs against: for every git command, the
exit code the process would return and the diagnostic text it would write to
its stderr.  `main.go` only ever consults the exit code (through `Run()`'s
error); `stderrText` models the diagnostic output that exists on the process
side but is never captured by the code. -/
structure GitEnv where
  exitCode : GitCommand → Nat
  stderrText : GitCommand → String

/-- Models `exec.Command(...).Run()`: `none` for exit code 0 (a nil error),
otherwise `some` of the Go error's text, which for a process that ran and
exited nonzero is `"exit status N"` — the stderr text is not part of it,
because `main.go` never wires up stderr capture. -/
def runCmd (env : GitEnv) (c : GitCommand) : Option String :=
  if env.exitCode c = 0 then none
  else some ("exit status " ++ toString (env.exitCode c))

/-- `git -C path stash` (main.go 209). -/
def stashCmd (p : String) : GitCommand := ⟨p, ["stash"]⟩

/-- `git -C path fetch origin` (main.go 212). -/
def fetchCmd (p : String) : GitCommand := ⟨p, ["fetch", "origin"]⟩

/-- `git -C path branch -D main` (main.go 216). -/
def deleteMainCmd (p : String) : GitCommand := ⟨p, ["branch", "-D", "main"]⟩

/-- `git -C path checkout --track origin/main` (main.go 218). -/
def checkoutCmd (p : String) : GitCommand := ⟨p, ["checkout", "--track", "origin/main"]⟩

/-- `git -C path pull origin main` (main.go 222). -/
def pullCmd (p : String) : GitCommand := ⟨p, ["pull", "origin", "main"]⟩

/-- `git -C path checkout -b branchName` (main.go 228). -/
def createBranchCmd (p b : String) : GitCommand := ⟨p, ["checkout", "-b", b]⟩

/-- Shallow embedding of `switchBranch` (main.go 207–234), instrumented with
the ordered list of external commands actually invoked.  The first component
is the function's returned Go error (`none` = nil = success).  The results of
the stash and delete-local-main invocations are discarded exactly as the
source discards them. -/
def switchBranchTrace (env : GitEnv) (projectPath branchName : String) :
    Option String × List GitCommand :=
  let c1 := stashCmd projectPath
  let c2 := fetchCmd projectPath
  match runCmd env c2 with
  | some e => (some ("failed to fetch: " ++ e), [c1, c2])
  | none =>
    let c3 := deleteMainCmd projectPath
    let c4 := checkoutCmd projectPath
    match runCmd env c4 with
    | some e => (some ("failed to checkout main: " ++ e), [c1, c2, c3, c4])
    | none =>
      let c5 := pullCmd projectPath
      match runCmd env c5 with
      | some e => (some ("failed to pull: " ++ e), [c1, c2, c3, c4, c5])
      | none =>
        if branchName ≠ "" then
          let c6 := createBranchCmd projectPath branchName
          match runCmd env c6 with
          | some e => (some ("failed to create branch: " ++ e), [c1, c2, c3, c4, c5, c6])
          | none => (none, [c1, c2, c3, c4, c5, c6])
        else (none, [c1, c2, c3, c4, c5])

/-- The result of `switchBranch` alone (its returned error value). -/
def switchBranch (env : GitEnv) (projectPath branchName : String) : Option String :=
  (switchBranchTrace env projectPath branchName).1

/-- Executor stage at which a failure occurred (spec §3, `RepositoryOutcome`). -/
inductive Stage where
  | fetch
  | checkout
  | pull
  | branchCreate
deriving DecidableEq, Repr

/-- Per-repository result (spec §3): `Success` or `Failure{stage, message}`. -/
inductive RepositoryOutcome where
  | success
  | failure (stage : Stage) (message : String)
deriving DecidableEq, Repr

/-- The fixed per-stage marker the code prints before the underlying error. -/
def stageMarker : Stage → String
  | .fetch => "failed to fetch: "
  | .checkout => "failed to checkout main: "
  | .pull => "failed to pull: "
  | .branchCreate => "failed to create branch: "

/-- The Go error value corresponding to a spec-level outcome: `Success` is a
nil error, `Failure{stage, e}` is the stage's marker followed by `e`. -/
def outcomeToGoError : RepositoryOutcome → Option String
  | .success => none
  | .failure st e => some (stageMarker st ++ e)

/-- Modelled from the spec (§4.2): the executor's contract, written from the
specification's words.  The fixed sequence is stash (best-effort), fetch
(aborts with stage Fetch), delete local main (best-effort), checkout-and-track
(aborts with stage Checkout), pull (aborts with stage Pull), and — only when a
new branch is requested — branch creation (aborts with stage BranchCreate).
Returns the outcome together with the commands issued, in order; nothing runs
after an aborting failure and nothing is rolled back. -/
def executeSpec (env : GitEnv) (p b : String) : RepositoryOutcome × List GitCommand :=
  let c1 := stashCmd p
  let c2 := fetchCmd p
  let c3 := deleteMainCmd p
  let c4 := checkoutCmd p
  let c5 := pullCmd p
  if env.exitCode c2 ≠ 0 then
    (.failure .fetch ("exit status " ++ toString (env.exitCode c2)), [c1, c2])
  else if env.exitCode c4 ≠ 0 then
    (.failure .checkout ("exit status " ++ toString (env.exitCode c4)), [c1, c2, c3, c4])
  else if env.exitCode c5 ≠ 0 then
    (.failure .pull ("exit status " ++ toString (env.exitCode c5)), [c1, c2, c3, c4, c5])
  else if b ≠ "" then
    let c6 := createBranchCmd p b
    if env.exitCode c6 ≠ 0 then
      (.failure .branchCreate ("exit status " ++ toString (env.exitCode c6)),
        [c1, c2, c3, c4, c5, c6])
    else (.success, [c1, c2, c3, c4, c5, c6])
  else (.success, [c1, c2, c3, c4, c5])

/-- UI mode: the `mode` enumeration in `main.go` (59–66). -/
inductive Mode where
  | selectAction
  | selectProjects
  | enterBranch
  | processing
deriving DecidableEq, Repr

/-- Association-list model of Go's `map[int]bool`: reading an absent key
yields `false`, as Go's map read does.  Every map the program builds has
pairwise distinct keys, so the list length is Go's `len`. -/
def mapGet (s : List (Nat × Bool)) (k : Nat) : Bool :=
  (s.lookup k).getD false

/-- Model of a Go map write `s[k] = v`: replace the entry if the key is
present, append it otherwise. -/
def mapSet (s : List (Nat × Bool)) (k : Nat) (v : Bool) : List (Nat × Bool) :=
  if s.any (fun q => q.1 == k) then
    s.map (fun q => if q.1 == k then (k, v) else q)
  else s ++ [(k, v)]

/-- The loop `for i := range m.projects { selected[i] = true }`: inserts keys
`0 .. n-1`, ascending, each mapped to `true`. -/
def insertAllTrue (s : List (Nat × Bool)) (n : Nat) : List (Nat × Bool) :=
  (List.range n).foldl (fun acc i => mapSet acc i true) s

/-- The fully selected map over `n` repositories in the form the insert loop
produces from an empty map. -/
def selectAll (n : Nat) : List (Nat × Bool) :=
  (List.range n).map (fun i => (i, true))

/-- Application state: the `model` struct in `main.go` (69–78). -/
structure Model where
  projects : List Project
  selected : List (Nat × Bool)
  cursor : Nat
  mode : Mode
  action : Nat
  branchName : String
  processing : Bool
  error : String
deriving DecidableEq, Repr

/-- The `tea.Cmd` values the update functions return: nil, `tea.Quit`, or the
deferred `processProjects` closure; the closure captures the model's selection
and project list and the branch-name argument, recorded here. -/
inductive Cmd where
  | none
  | quit
  | processProjects (selected : List (Nat × Bool)) (projects : List Project)
      (branchName : String)
deriving DecidableEq, Repr

/-- Embedding of `updateActionSelect` (main.go 101–123).  Keys are the strings
`tea.KeyMsg.String()` yields; unlisted keys leave the model unchanged. -/
def updateActionSelect (m : Model) (key : String) : Model × Cmd :=
  if key = "q" ∨ key = "ctrl+c" then (m, .quit)
  else if key = "up" ∨ key = "k" then
    (if m.cursor > 0 then { m with cursor := m.cursor - 1 } else m, .none)
  else if key = "down" ∨ key = "j" then
    (if m.cursor < 1 then { m with cursor := m.cursor + 1 } else m, .none)
  else if key = "enter" then
    ({ m with
        action := m.cursor
        mode := Mode.selectProjects
        cursor := 0
        selected := insertAllTrue m.selected m.projects.length }, .none)
  else (m, .none)

/-- Embedding of `updateProjectSelect` (main.go 125–165).  Note the two
emptiness tests used by the source: the toggle-all branch compares
`len(m.selected)` with `len(m.projects)` and the confirm branch compares
`len(m.selected)` with 0 — both count map entries regardless of their boolean
value. -/
def updateProjectSelect (m : Model) (key : String) : Model × Cmd :=
  if key = "q" ∨ key = "ctrl+c" then (m, .quit)
  else if key = "esc" then
    ({ m with mode := .selectAction, cursor := 0, selected := [] }, .none)
  else if key = "up" ∨ key = "k" then
    (if m.cursor > 0 then { m with cursor := m.cursor - 1 } else m, .none)
  else if key = "down" ∨ key = "j" then
    (if m.cursor < m.projects.length - 1 then { m with cursor := m.cursor + 1 } else m,
      .none)
  else if key = " " then
    ({ m with selected := mapSet m.selected m.cursor (!(mapGet m.selected m.cursor)) },
      .none)
  else if key = "a" then
    (if m.selected.length = m.projects.length then { m with selected := [] }
     else { m with selected := insertAllTrue [] m.projects.length }, .none)
  else if key = "enter" then
    if m.selected.length = 0 then
      ({ m with error := "No projects selected" }, .none)
    else if m.action = 1 then
      ({ m with mode := .enterBranch, branchName := "" }, .none)
    else (m, .processProjects m.selected m.projects "")
  else (m, .none)

/-- Embedding of `updateBranchInput` (main.go 167–189).  The default case
appends any single-character key to the branch name. -/
def updateBranchInput (m : Model) (key : String) : Model × Cmd :=
  if key = "q" ∨ key = "ctrl+c" then (m, .quit)
  else if key = "esc" then ({ m with mode := .selectProjects }, .none)
  else if key = "enter" then
    if m.branchName = "" then
      ({ m with error := "Branch name cannot be empty" }, .none)
    else (m, .processProjects m.selected m.projects m.branchName)
  else if key = "backspace" then
    (if m.branchName.length > 0 then { m with branchName := m.branchName.dropRight 1 }
     else m, .none)
  else
    (if key.length = 1 then { m with branchName := m.branchName ++ key } else m, .none)

/-- The messages the `processProjects` closure can deliver back to the program
(main.go 191–205): `msgError` carrying the first failure's error text, or
`msgProcessComplete`. -/
inductive GoMsg where
  | errorMsg (e : String)
  | processComplete
deriving DecidableEq, Repr

/-- A Bubble Tea message: a key press, or an application message such as the
one the `processProjects` closure delivers. -/
inductive TeaMsg where
  | key (s : String)
  | app (g : GoMsg)
deriving DecidableEq, Repr

/-- Embedding of `model.Update` (main.go 86–99): key messages are dispatched
on the current mode (no branch exists for the processing mode, so it falls
through unchanged); every non-key message — including `msgProcessComplete` and
`msgError` — falls through the type switch and leaves the model unchanged with
no command. -/
def Update (m : Model) (t : TeaMsg) : Model × Cmd :=
  match t with
  | .key s =>
    match m.mode with
    | .selectAction => updateActionSelect m s
    | .selectProjects => updateProjectSelect m s
    | .enterBranch => updateBranchInput m s
    | .processing => (m, .none)
  | .app _ => (m, .none)

/-- Embedding of the closure inside `processProjects` (main.go 191–205),
instrumented with the git commands executed.  `entries` lists the selection
map's key/value pairs in the order Go's map iteration happens to yield them —
that order is unspecified, so it is an explicit parameter; false entries are
skipped; the first repository whose `switchBranch` call fails short-circuits
the loop into a single `msgError`, and later entries are never visited.
Indexing `projects[id]` is total in Go only for in-range ids; out-of-range ids
(which the program never produces) default to an empty descriptor here. -/
def runProcessProjects (env : GitEnv) (projects : List Project)
    (entries : List (Nat × Bool)) (branchName : String) : GoMsg × List GitCommand :=
  match entries with
  | [] => (.processComplete, [])
  | (id, sel) :: rest =>
    if sel then
      let r := switchBranchTrace env (projects.getD id ⟨"", ""⟩).path branchName
      match r.1 with
      | some e => (.errorMsg e, r.2)
      | none =>
        let tailRes := runProcessProjects env projects rest branchName
        (tailRes.1, r.2 ++ tailRes.2)
    else runProcessProjects env projects rest branchName

/-- One entry of `os.ReadDir`: its name and whether it is a directory. -/
structure DirEntry where
  name : String
  isDir : Bool
deriving DecidableEq, Repr

/-- The filesystem as discovery sees it: the parent directory's path, the
entry list `os.ReadDir` returned together with whether it also reported an
error (for the unreadable-directory error the entry list is empty), and the
result of `os.Stat(parent/name/.git)` — whether that path exists and is a
directory. -/
structure FS where
  parentDir : String
  dirs : List DirEntry
  readDirErr : Bool
  gitDirAt : String → Bool

/-- `filepath.Join` for a clean directory path and a simple entry name. -/
def joinPath (a b : String) : String := a ++ "/" ++ b

/-- Name order used by the final `sort.Slice`: Go compares strings bytewise,
which on UTF-8 data coincides with the code-point order of Lean strings. -/
def nameLe (a b : Project) : Prop := a.name ≤ b.name

instance : DecidableRel nameLe :=
  fun a b => inferInstanceAs (Decidable (a.name ≤ b.name))

instance : IsTotal Project nameLe :=
  ⟨fun a b => le_total a.name b.name⟩

instance : IsTrans Project nameLe :=
  ⟨fun _ _ _ hab hbc => le_trans hab hbc⟩

/-- The qualification test of the discovery loop (main.go 351–354): the entry
is a directory and `parent/name/.git` exists and is a directory. -/
def qualifies (fs : FS) (d : DirEntry) : Bool :=
  d.isDir && fs.gitDirAt d.name

/-- The descriptor built for a qualifying entry (main.go 355–358). -/
def toProject (fs : FS) (d : DirEntry) : Project :=
  ⟨d.name, joinPath fs.parentDir d.name⟩

/-- Embedding of `findProjects` (main.go 342–368): the error of `os.ReadDir`
is discarded by the source (`dirs, _ := os.ReadDir(parentDir)`), so it is
unused here; qualifying entries become descriptors in entry order and the
result is sorted by name ascending (`sort.Slice` with `<` on names, modelled
by insertion sort with the reflexive order, equivalent on the duplicate-free
names of a directory listing). -/
def findProjects (fs : FS) : List Project :=
  List.insertionSort nameLe ((fs.dirs.filter (qualifies fs)).map (toProject fs))

/-- Embedding of `main`'s startup gate (main.go 370–376): `none` models
printing "No Git repositories found in parent directory" and exiting with
status 1; `some ps` models continuing into the interactive program with the
discovered list. -/
def mainStartup (fs : FS) : Option (List Project) :=
  let ps := findProjects fs
  if ps.length = 0 then none else some ps

/-! ### Helper lemmas -/

theorem mapSet_of_not_mem (s : List (Nat × Bool)) (k : Nat) (v : Bool)
    (h : s.any (fun q => q.1 == k) = false) : mapSet s k v = s ++ [(k, v)] := by
  simp [mapSet, h]

theorem selectAll_any_eq_false (n : Nat) :
    (selectAll n).any (fun q => q.1 == n) = false := by
  apply List.any_eq_false.mpr
  intro q hq
  simp only [selectAll, List.mem_map, List.mem_range] at hq
  obtain ⟨i, hi, rfl⟩ := hq
  simp
  omega

theorem insertAllTrue_nil (n : Nat) : insertAllTrue [] n = selectAll n := by
  induction n with
  | zero => rfl
  | succ n ih =>
    unfold insertAllTrue at ih ⊢
    rw [List.range_succ, List.foldl_append, ih, List.foldl_cons, List.foldl_nil,
      mapSet_of_not_mem _ _ _ (selectAll_any_eq_false n)]
    simp [selectAll, List.range_succ]

theorem selectAll_length (n : Nat) : (selectAll n).length = n := by
  simp [selectAll]

theorem updateProjectSelect_a (m : Model) :
    updateProjectSelect m "a" =
      (if m.selected.length = m.projects.length then { m with selected := [] }
       else { m with selected := insertAllTrue [] m.projects.length }, Cmd.none) := rfl

theorem updateProjectSelect_enter (m : Model) :
    updateProjectSelect m "enter" =
      (if m.selected.length = 0 then
        ({ m with error := "No projects selected" }, Cmd.none)
       else if m.action = 1 then
        ({ m with mode := Mode.enterBranch, branchName := "" }, Cmd.none)
       else (m, Cmd.processProjects m.selected m.projects "")) := rfl

/-! ### Claim theorems -/

/-- C2: for every repository descriptor and operation spec, the branch-switch
executor runs exactly the fixed five-step sequence in order — stash
(best-effort), fetch origin (aborts with stage Fetch), delete local main
(best-effort), checkout --track origin/main (aborts with stage Checkout), pull
origin main (aborts with stage Pull), and, only when a new branch is
requested, checkout -b (aborts with stage BranchCreate) — returning Success
iff no aborting step fails, with no step executed after an aborting failure
and no completed step rolled back: the embedded `switchBranchTrace` equals the
spec-side contract `executeSpec` (result mapped through `outcomeToGoError` and
the identical command trace). -/
theorem switchBranch_runs_fixed_sequence (env : GitEnv) (p b : String) :
    switchBranchTrace env p b =
      (outcomeToGoError (executeSpec env p b).1, (executeSpec env p b).2) := by
  by_cases h2 : env.exitCode (fetchCmd p) = 0
  · by_cases h4 : env.exitCode (checkoutCmd p) = 0
    · by_cases h5 : env.exitCode (pullCmd p) = 0
      · by_cases hb : b = ""
        · simp [switchBranchTrace, executeSpec, runCmd, outcomeToGoError, h2, h4, h5, hb]
        · by_cases h6 : env.exitCode (createBranchCmd p b) = 0
          · simp [switchBranchTrace, executeSpec, runCmd, outcomeToGoError,
              h2, h4, h5, hb, h6]
          · simp [switchBranchTrace, executeSpec, runCmd, outcomeToGoError, stageMarker,
              h2, h4, h5, hb, h6]
      · simp [switchBranchTrace, executeSpec, runCmd, outcomeToGoError, stageMarker,
          h2, h4, h5]
    · simp [switchBranchTrace, executeSpec, runCmd, outcomeToGoError, stageMarker, h2, h4]
  · simp [switchBranchTrace, executeSpec, runCmd, outcomeToGoError, stageMarker, h2]

/-- C9: for every parent directory, discovery returns exactly one repository
descriptor per qualifying child (an immediate child directory with a Git
metadata directory directly inside it) and none for the non-qualifying
children — the result of `findProjects` is a permutation of the descriptors of
the qualifying entries, hence has length K when K children qualify — and the
result is ordered by name ascending. -/
theorem findProjects_exact_and_sorted (fs : FS) :
    (findProjects fs).Perm ((fs.dirs.filter (qualifies fs)).map (toProject fs)) ∧
    (findProjects fs).length = (fs.dirs.filter (qualifies fs)).length ∧
    List.Sorted nameLe (findProjects fs) := by
  refine ⟨List.perm_insertionSort _ _, ?_, List.sorted_insertionSort _ _⟩
  simp [findProjects]

/-! ### Concrete scenarios -/

/-- Repository descriptor used by the concrete batch scenarios. -/
def repoA : Project := ⟨"a", "/repos/a"⟩

/-- Second repository descriptor used by the concrete batch scenarios. -/
def repoB : Project := ⟨"b", "/repos/b"⟩

/-- Environment in which only repository a's fetch fails (exit status 1) and
every other command succeeds. -/
def envFetchFailsA : GitEnv :=
  ⟨fun c => if c = fetchCmd "/repos/a" then 1 else 0, fun _ => ""⟩

/-- Environment in which both repositories' fetches fail, with different exit
codes so the two failures are tellable apart. -/
def envBothFetchFail : GitEnv :=
  ⟨fun c =>
    if c = fetchCmd "/repos/a" then 1
    else if c = fetchCmd "/repos/b" then 2
    else 0,
   fun _ => ""⟩

/-- C1: the claim says a batch over N selected repositories in which exactly
one fetch fails still yields one outcome per repository (the failing one
tagged with stage Fetch, the rest Success) and that one failure never prevents
the other sequences from running.  The code does the opposite: with
repositories a and b both selected and only a's fetch failing, the embedded
batch loop returns the single message `msgError` for a — its result type
carries no per-repository outcome collection at all — and the executed-command
trace stops at a's fetch, so repository b's sequence is never started. -/
theorem batch_aborts_on_first_failure :
    runProcessProjects envFetchFailsA [repoA, repoB] [(0, true), (1, true)] "" =
      (GoMsg.errorMsg "failed to fetch: exit status 1",
        [stashCmd "/repos/a", fetchCmd "/repos/a"]) := by decide

/-- C3: the claim says per-repository outcomes appear in the original
selection order regardless of completion timing.  The code iterates the
selection map with Go's range, whose order is unspecified, and produces no
outcome collection: for the same selection map enumerated in its two possible
orders, the batch returns two different results (the first failure it happens
to meet), so the result is not determined by the selection at all. -/
theorem batch_result_depends_on_iteration_order :
    (runProcessProjects envBothFetchFail [repoA, repoB] [(0, true), (1, true)] "").1 =
      GoMsg.errorMsg "failed to fetch: exit status 1" ∧
    (runProcessProjects envBothFetchFail [repoA, repoB] [(1, true), (0, true)] "").1 =
      GoMsg.errorMsg "failed to fetch: exit status 2" ∧
    List.Perm [(0, true), (1, true)] ([(1, true), (0, true)] : List (Nat × Bool)) := by
  refine ⟨by decide, by decide, List.Perm.swap _ _ _⟩

/-- Model on the repository-selection screen with one repository selected and
the plain switch action, for the confirm scenario of C6. -/
def modelC6 : Model := ⟨[repoA], [(0, true)], 0, Mode.selectProjects, 0, "", false, ""⟩

/-- C6: the claim says confirming with at least one repository selected and
the plain switch action transitions to the Processing state, and on batch
completion to a terminal ShowResults state carrying the batch result.  The
code does invoke the batch command, but leaves the mode unchanged — the
processing mode is never entered — and the completion message falls through
`Update`'s type switch, leaving the model untouched with no command; the mode
enumeration has no results state to transition to. -/
theorem confirm_never_enters_processing_mode :
    (Update modelC6 (TeaMsg.key "enter")).2 =
      Cmd.processProjects [(0, true)] [repoA] "" ∧
    (Update modelC6 (TeaMsg.key "enter")).1.mode = Mode.selectProjects ∧
    Update (Update modelC6 (TeaMsg.key "enter")).1 (TeaMsg.app GoMsg.processComplete) =
      ((Update modelC6 (TeaMsg.key "enter")).1, Cmd.none) := by decide

/-- Model on the repository-selection screen with its single repository
selected, about to be toggled off, for the C4 counterexample. -/
def modelC4 : Model := ⟨[repoA], [(0, true)], 0, Mode.selectProjects, 0, "", false, ""⟩

/-- C4 counterexample: toggling the single repository off with the space key
leaves the explicit entry `(0, false)` in the selection map — a reachable
state in which zero repositories are selected (index 0 is mapped to false) —
yet confirming sets no error message and does start processing, because the
confirm handler only tests the map's entry count. -/
theorem confirm_with_false_entry_starts_processing :
    (updateProjectSelect modelC4 " ").1.selected = [(0, false)] ∧
    mapGet (updateProjectSelect modelC4 " ").1.selected 0 = false ∧
    (updateProjectSelect (updateProjectSelect modelC4 " ").1 "enter").1.error = "" ∧
    (updateProjectSelect (updateProjectSelect modelC4 " ").1 "enter").1.mode =
      Mode.selectProjects ∧
    (updateProjectSelect (updateProjectSelect modelC4 " ").1 "enter").2 =
      Cmd.processProjects [(0, false)] [repoA] "" := by decide

/-- C4 (amended): in the repository-selection state the confirm intent sets
the transient error message, remains in the same mode and starts no processing
exactly when the selection mapping has no entries at all — an entry explicitly
mapped to false counts as present and lets confirmation proceed. -/
theorem confirm_with_empty_map_errors (m : Model)
    (hmode : m.mode = Mode.selectProjects) (hsel : m.selected = []) :
    Update m (TeaMsg.key "enter") =
      ({ m with error := "No projects selected" }, Cmd.none) := by
  have hd : Update m (TeaMsg.key "enter") = updateProjectSelect m "enter" := by
    unfold Update
    rw [hmode]
  rw [hd, updateProjectSelect_enter, hsel]
  rfl

/-- Model with an empty selection mapping on the repository-selection screen,
the concrete input for the C4 witness. -/
def modelC4w : Model := ⟨[repoA], [], 0, Mode.selectProjects, 1, "", false, ""⟩

/-- Witness for C4 (amended) at a concrete model with an empty selection
mapping. -/
theorem confirm_with_empty_map_errors_witness :
    Update modelC4w (TeaMsg.key "enter") =
      ({ modelC4w with error := "No projects selected" }, Cmd.none) :=
  confirm_with_empty_map_errors modelC4w rfl rfl

/-- Model with one repository and the single selection entry `(0, false)`, the
concrete input for the C5 counterexample. -/
def modelC5 : Model := ⟨[repoA], [(0, false)], 0, Mode.selectProjects, 0, "", false, ""⟩

/-- C5 counterexample: with one repository and the selection map holding the
single entry `(0, false)`, the current selection is empty — not the full set —
so the claim requires toggle-all to produce the full set; the code instead
compares entry counts (1 = 1), treats the selection as full and clears the
map, leaving repository 0 unselected after the toggle. -/
theorem toggle_all_on_false_entry_clears :
    mapGet modelC5.selected 0 = false ∧
    (updateProjectSelect modelC5 "a").1.selected = [] ∧
    mapGet (updateProjectSelect modelC5 "a").1.selected 0 = false := by decide

/-- C5 (amended): toggle-all clears the selection exactly when the mapping's
entry count equals the number of repositories — entry values are ignored, so a
mapping of explicit false entries also counts as "all selected" — and
otherwise sets every index to true; in particular applying toggle-all twice
starting from the full set yields the full set again. -/
theorem toggle_all_counts_entries (m : Model)
    (_hnod : (m.selected.map Prod.fst).Nodup) :
    ((updateProjectSelect m "a").1.selected =
      if m.selected.length = m.projects.length then []
      else selectAll m.projects.length) ∧
    (m.selected = selectAll m.projects.length →
      (updateProjectSelect (updateProjectSelect m "a").1 "a").1.selected =
        selectAll m.projects.length) := by
  constructor
  · rw [updateProjectSelect_a]
    by_cases h : m.selected.length = m.projects.length
    · simp [h]
    · simp [h, insertAllTrue_nil]
  · intro hfull
    have hlen : m.selected.length = m.projects.length := by
      rw [hfull, selectAll_length]
    have hin : (updateProjectSelect m "a").1 = { m with selected := [] } := by
      rw [updateProjectSelect_a, if_pos hlen]
    rw [hin, updateProjectSelect_a]
    by_cases hz : m.projects.length = 0
    · simp [hz, selectAll, insertAllTrue]
    · have hz0 : ¬ (0 = m.projects.length) := fun hc => hz hc.symm
      simp [hz, hz0, insertAllTrue_nil]

/-- Model with one repository fully selected, the concrete input for the C5
witness. -/
def modelC5w : Model := ⟨[repoA], [(0, true)], 0, Mode.selectProjects, 0, "", false, ""⟩

/-- Witness for C5 (amended) at a concrete fully selected model: the first
toggle-all clears the selection, the second restores the full set. -/
theorem toggle_all_counts_entries_witness :
    (updateProjectSelect modelC5w "a").1.selected = [] ∧
    (updateProjectSelect (updateProjectSelect modelC5w "a").1 "a").1.selected =
      selectAll 1 := by
  have h := toggle_all_counts_entries modelC5w (by decide)
  refine ⟨?_, h.2 (by decide)⟩
  have h1 := h.1
  simpa [modelC5w, repoA] using h1

/-- Filesystem in which the parent directory could not be read: `os.ReadDir`
reported an error and returned no entries. -/
def fsUnreadable : FS := ⟨"/base", [], true, fun _ => false⟩

/-- Filesystem in which the parent directory is readable but holds no
qualifying child. -/
def fsEmptyReadable : FS := ⟨"/base", [], false, fun _ => false⟩

/-- C8 counterexample: an unreadable parent directory (read error, no entries)
and a readable parent with zero matching children produce identical behaviour
— the code discards the read error, `findProjects` returns the same empty
list, and startup aborts with the same one-line message in both cases — so no
discovery failure distinct from the valid empty sequence exists. -/
theorem unreadable_dir_indistinct_from_empty :
    findProjects fsUnreadable = findProjects fsEmptyReadable ∧
    findProjects fsUnreadable = [] ∧
    mainStartup fsUnreadable = none ∧
    mainStartup fsEmptyReadable = none :=
  ⟨rfl, rfl, rfl, rfl⟩

/-- C8 (amended): repository discovery never consults the directory-read
error — for any entry list the result is independent of whether `os.ReadDir`
also reported an error — and when the parent could not be read (so the entry
list is empty) discovery yields the valid empty sequence and startup aborts
exactly as for a readable directory with zero matching children. -/
theorem discovery_ignores_read_error (p : String) (entries : List DirEntry)
    (g : String → Bool) (e1 e2 : Bool) :
    findProjects ⟨p, entries, e1, g⟩ = findProjects ⟨p, entries, e2, g⟩ ∧
    findProjects ⟨p, [], e1, g⟩ = [] ∧
    mainStartup ⟨p, [], e1, g⟩ = none :=
  ⟨rfl, rfl, rfl⟩

/-- Environment whose fetch fails with exit status 1 while the process writes
one particular diagnostic to stderr. -/
def envStderrA : GitEnv :=
  ⟨fun _ => 1, fun _ => "fatal: unable to access remote: could not resolve host github.com"⟩

/-- Environment whose fetch also fails with exit status 1 but with a different
stderr diagnostic. -/
def envStderrB : GitEnv :=
  ⟨fun _ => 1, fun _ => "fatal: not a git repository (or any of the parent directories)"⟩

/-- C10 counterexample: two failing fetches with the same exit status but
different stderr diagnostics yield the very same outcome message — a message
shorter than either diagnostic, so it cannot include the failing command's
diagnostic text — making the two underlying causes indistinguishable. -/
theorem failure_message_omits_diagnostics :
    switchBranch envStderrA "/repos/a" "" = some "failed to fetch: exit status 1" ∧
    switchBranch envStderrB "/repos/a" "" = switchBranch envStderrA "/repos/a" "" ∧
    envStderrA.stderrText (fetchCmd "/repos/a") ≠
      envStderrB.stderrText (fetchCmd "/repos/a") ∧
    ("failed to fetch: exit status 1").length <
      (envStderrA.stderrText (fetchCmd "/repos/a")).length := by
  refine ⟨rfl, rfl, by decide, by decide⟩

/-- C10 (amended): a failing aborting step's outcome message is the fixed
stage marker followed by the Go error text, which for a process that exited
nonzero carries only the exit status — stderr is never captured, so the whole
executor run is determined by the exit codes alone, and a fetch failure's
message is exactly the fetch marker followed by "exit status N". -/
theorem failure_message_is_exit_status_only (env envB : GitEnv) (p b : String)
    (hsame : envB.exitCode = env.exitCode) :
    switchBranchTrace envB p b = switchBranchTrace env p b ∧
    (env.exitCode (fetchCmd p) ≠ 0 →
      switchBranch env p b =
        some (stageMarker Stage.fetch ++
          ("exit status " ++ toString (env.exitCode (fetchCmd p))))) := by
  constructor
  · simp [switchBranchTrace, runCmd, hsame]
  · intro hf
    simp [switchBranch, switchBranchTrace, runCmd, hf, stageMarker]

/-- Environment with every command failing with exit status 7 and one stderr
diagnostic, for the C10 witness. -/
def envExit7 : GitEnv := ⟨fun _ => 7, fun _ => "some long diagnostic text"⟩

/-- Environment with the same exit codes as `envExit7` but a different stderr
diagnostic, for the C10 witness. -/
def envExit7b : GitEnv := ⟨fun _ => 7, fun _ => "a different diagnostic text"⟩

/-- Witness for C10 (amended) at concrete environments: equal exit codes give
equal executor runs regardless of stderr, and the failing fetch's message is
the literal "failed to fetch: exit status 7". -/
theorem failure_message_is_exit_status_only_witness :
    switchBranchTrace envExit7b "/repos/a" "" = switchBranchTrace envExit7 "/repos/a" "" ∧
    switchBranch envExit7 "/repos/a" "" = some "failed to fetch: exit status 7" := by
  have h := failure_message_is_exit_status_only envExit7 envExit7b "/repos/a" "" rfl
  refine ⟨h.1, ?_⟩
  rw [h.2 (by decide)]
  rfl

end BranchSwitcher
